import Mathlib

/-!
Shallow embedding of the Will.IAM OAuth2 Google provider and the roles
repository (src/repositories/roles.go and the oauth2 provider file).

Network and persistence effects are modelled by an explicit environment
(`Env`) giving the responses of the token endpoint, the identity endpoint
and the token store, together with a trace of the dependency calls an
operation performed (`Call`).  Go's `time.Now()` is the `now` field of the
environment (seconds).  Go map iteration order, which is randomized, is
modelled as an explicit iteration-order argument constrained to be a
permutation of the map's entries.
-/

/-- A JSON value, as decoded by Go's `encoding/json` into `interface\x7b\x7d`:
numbers always become `float64`; we restrict to integral numbers (an `Int`)
since no claim depends on fractional values. -/
inductive Json where
  | null : Json
  | bool (b : Bool) : Json
  | num (n : Int) : Json
  | str (s : String) : Json
  | arr (elems : List Json) : Json
  | obj (fields : List (String × Json)) : Json

/-- Model of `models.Token`: the persisted token record.  `expiry` is an absolute
time in seconds. -/
structure Token where
  accessToken : String
  refreshToken : String
  tokenType : String
  expiry : Int
  email : String
deriving DecidableEq, Repr

/-- Model of `oauth2.AuthResult`. -/
structure AuthResult where
  accessToken : String
  email : String
deriving DecidableEq, Repr

/-- Model of `oauth2.GoogleConfig`.  A Go `nil` slice and an empty slice are both
modelled as `[]` (the source treats them alike:
`HostedDomains == nil || len(HostedDomains) == 0`). -/
structure GoogleConfig where
  clientID : String
  clientSecret : String
  redirectURL : String
  hostedDomains : List String
deriving DecidableEq, Repr

/-- The decoded `userInfo` struct: `json:"email"` and `json:"hd"`;
a missing JSON field leaves the Go zero value `""`. -/
structure userInfo where
  email : String
  hostedDomain : String
deriving DecidableEq, Repr

/-- Result of running a piece of Go code: normal value, returned `error`
(its message), or a runtime panic (e.g. a failed interface type
assertion). -/
inductive Outcome (α : Type) where
  | ok (a : α) : Outcome α
  | err (msg : String) : Outcome α
  | panic : Outcome α
deriving DecidableEq, Repr

/-- Sequencing of Go statements: an error return or a panic aborts the
rest of the function. -/
def Outcome.bind {α β : Type} : Outcome α → (α → Outcome β) → Outcome β
  | .ok a, f => f a
  | .err m, _ => .err m
  | .panic, _ => .panic

/-- One outbound dependency call performed by the provider. -/
inductive Call where
  | tokenPost : Call
  | userGet (bearer : String) : Call
  | storeSave (t : Token) : Call
  | storeGet (accessToken : String) : Call
deriving DecidableEq, Repr

/-- The raw body of an HTTP response, as far as `json.Unmarshal` into
`map[string]interface\x7b\x7d` can see it: either the unmarshal fails
(invalid JSON, or a JSON value that is not an object), or it yields the
object's fields. -/
inductive RawBody where
  | malformed (unmarshalErr : String) : RawBody
  | objVal (fields : List (String × Json)) : RawBody

/-- Outcome of the POST to the token endpoint: transport failure of
`client.Do`, or a body. -/
inductive TokenEndpointResp where
  | netErr (msg : String) : TokenEndpointResp
  | body (raw : RawBody) : TokenEndpointResp

/-- Outcome of the GET to the identity endpoint: transport failure,
an `Unmarshal` failure into the `userInfo` struct, or a decoded body
with each of the two recognized fields present or absent. -/
inductive UserEndpointResp where
  | netErr (msg : String) : UserEndpointResp
  | malformed (unmarshalErr : String) : UserEndpointResp
  | okBody (email : Option String) (hd : Option String) : UserEndpointResp
deriving DecidableEq, Repr

/-- The environment a `Google` provider operation runs in: the responses
of its dependencies and the current time. `store` is the token
repository's `Get` (a pair: the found token or `nil`, and the error);
`saveResult` is the repository's `Save` (`none` = success). -/
structure Env where
  tokenResp : TokenEndpointResp
  userResp : String → UserEndpointResp
  saveResult : Token → Option String
  store : String → Option Token × Option String
  now : Int

/-- Go map indexing `tmap["k"]` (first binding wins; JSON object keys are
unique after `Unmarshal`). -/
def lookupField (fields : List (String × Json)) (k : String) : Option Json :=
  (fields.lookup k)

/-- The Go expression `v.(string)` on an `interface\x7b\x7d` read from the
map: panics unless the dynamic type is `string` (in particular on a
missing key, where `v` is `nil`). -/
def asString : Option Json → Outcome String
  | some (.str s) => .ok s
  | _ => .panic

/-- The Go expression `v.(float64)`: after `json.Unmarshal` every JSON
number has dynamic type `float64`, so this succeeds exactly on `Json.num`
and panics otherwise. -/
def asFloat64 : Option Json → Outcome Int
  | some (.num n) => .ok n
  | _ => .panic

/-- The struct literal built at the end of `tokenFromCode` from the
decoded map: four blind type assertions, then
`Expiry = time.Now().Add(time.Second * time.Duration(expires_in))`.
`Email` is left at the Go zero value. -/
def decodeTokenMap (fields : List (String × Json)) (now : Int) : Outcome Token :=
  (asString (lookupField fields "access_token")).bind fun atk =>
  (asString (lookupField fields "refresh_token")).bind fun rtk =>
  (asString (lookupField fields "token_type")).bind fun tt =>
  (asFloat64 (lookupField fields "expires_in")).bind fun ei =>
  .ok { accessToken := atk, refreshToken := rtk, tokenType := tt,
        expiry := now + ei, email := "" }

/-- Model of `Google.tokenFromCode`: POST the exchange form to the token endpoint,
unmarshal the body into a map, build the token.  (`http.NewRequest` with
the constant method and URL never fails, so the request-building error
branch is dead.) -/
def tokenFromCode (env : Env) : Outcome Token × List Call :=
  match env.tokenResp with
  | .netErr e => (.err e, [.tokenPost])
  | .body (.malformed e) => (.err e, [.tokenPost])
  | .body (.objVal fields) => (decodeTokenMap fields env.now, [.tokenPost])

/-- Model of `Google.getUserInfo`: GET the identity endpoint with the bearer token,
unmarshal into the `userInfo` struct (missing fields decode to `""`). -/
def getUserInfo (env : Env) (accessToken : String) : Outcome userInfo × List Call :=
  match env.userResp accessToken with
  | .netErr e => (.err e, [.userGet accessToken])
  | .malformed e => (.err e, [.userGet accessToken])
  | .okBody email hd =>
      (.ok { email := email.getD "", hostedDomain := hd.getD "" },
       [.userGet accessToken])

/-- Loop body of `Google.checkHostedDomain`: the scan over the configured allow-list,
Go string equality (exact, case-sensitive). -/
def containsDomain : List String → String → Bool
  | [], _ => false
  | allowed :: rest, hd => if hd == allowed then true else containsDomain rest hd

/-- Model of `Google.checkHostedDomain`. -/
def checkHostedDomain (cfg : GoogleConfig) (hd : String) : Bool :=
  if cfg.hostedDomains.isEmpty then true
  else containsDomain cfg.hostedDomains hd

/-- Model of `Google.ExchangeCode`: token exchange, identity fetch, hosted-domain
policy, persistence, in that order, each failure aborting immediately. -/
def ExchangeCode (env : Env) (cfg : GoogleConfig) : Outcome AuthResult × List Call :=
  match tokenFromCode env with
  | (.err e, c₁) => (.err e, c₁)
  | (.panic, c₁) => (.panic, c₁)
  | (.ok t, c₁) =>
    match getUserInfo env t.accessToken with
    | (.err e, c₂) => (.err e, c₁ ++ c₂)
    | (.panic, c₂) => (.panic, c₁ ++ c₂)
    | (.ok ui, c₂) =>
      if checkHostedDomain cfg ui.hostedDomain then
        match env.saveResult { t with email := ui.email } with
        | some e => (.err e, c₁ ++ c₂ ++ [.storeSave { t with email := ui.email }])
        | none => (.ok { accessToken := t.accessToken, email := ui.email },
                   c₁ ++ c₂ ++ [.storeSave { t with email := ui.email }])
      else
        (.err ("email from non-allowed hosted domain " ++ ui.hostedDomain),
         c₁ ++ c₂)

/-- Model of `Google.Authenticate`: token-store lookup, then a liveness probe of
the identity endpoint.  Note the source checks `t == nil` BEFORE `err`. -/
def Authenticate (env : Env) (accessToken : String) : Outcome AuthResult × List Call :=
  match env.store accessToken with
  | (none, _) => (.err "access token not found", [.storeGet accessToken])
  | (some t, someErr) =>
    match someErr with
    | some e => (.err e, [.storeGet accessToken])
    | none =>
      match getUserInfo env t.accessToken with
      | (.err e, c₂) => (.err e, .storeGet accessToken :: c₂)
      | (.panic, c₂) => (.panic, .storeGet accessToken :: c₂)
      | (.ok _, c₂) =>
          (.ok { accessToken := t.accessToken, email := t.email },
           .storeGet accessToken :: c₂)

/-! ## BuildAuthURL -/

/-- Authorization endpoint constant from `BuildAuthURL`. -/
def googleAuthEndpoint : String := "https://accounts.google.com/o/oauth2/v2/auth"

/-- Value of the `scope` map entry in `BuildAuthURL`:
`url.QueryEscape` of the two scope URLs (Go escapes `:` to `%3A` and `/`
to `%2F`, leaves alphanumerics and `-_.~`), joined with `+`. -/
def googleScope : String :=
  "https%3A%2F%2Fwww.googleapis.com%2Fauth%2Fuserinfo.profile+https%3A%2F%2Fwww.googleapis.com%2Fauth%2Fuserinfo.email"

/-- Model of `buildURL`: `fmt.Sprintf("%s?%s", endpoint, queryStrings)`. -/
def buildURL (endpoint queryStrings : String) : String :=
  endpoint ++ "?" ++ queryStrings

/-- Model of `strings.Join(s, "&")`. -/
def joinAmp : List String → String
  | [] => ""
  | [s] => s
  | s :: rest => s ++ "&" ++ joinAmp rest

/-- One `fmt.Sprintf("%s=%s", k, v)` element. -/
def fmtPair (kv : String × String) : String := kv.1 ++ "=" ++ kv.2

/-- Model of `mapToQueryStrings`.  Go iterates the map in a randomized
order; the iteration order is the explicit argument `iter` (the list of
key-value pairs in the order the loop sees them). -/
def mapToQueryStrings (iter : List (String × String)) : String :=
  joinAmp (iter.map fmtPair)

/-- Entries of the map literal in `Google.BuildAuthURL`, in source
order. -/
def authParams (cfg : GoogleConfig) (state : String) : List (String × String) :=
  [("state", state),
   ("redirect_uri", cfg.redirectURL),
   ("client_id", cfg.clientID),
   ("scope", googleScope),
   ("access_type", "offline"),
   ("include_granted_scopes", "true"),
   ("response_type", "code"),
   ("prompt", "consent")]

/-- Model of `Google.BuildAuthURL`: the URL built from one possible map
iteration order `iter` (constrained in the theorems to be a permutation
of `authParams cfg state`).  The function performs no dependency call:
its result is a pure function of its argument. -/
def BuildAuthURL (iter : List (String × String)) : String :=
  buildURL googleAuthEndpoint (mapToQueryStrings iter)

/-! ## Parsing the URL's query string back (observation side, from the
claims' words: split the query on `&`, take the first `key=`-segment). -/

/-- Split a character list on `&`. -/
def splitAmp : List Char → List (List Char)
  | [] => [[]]
  | c :: rest =>
    if c = '&' then [] :: splitAmp rest
    else
      match splitAmp rest with
      | [] => [[c]]
      | seg :: segs => (c :: seg) :: segs

/-- Character-list version of `joinAmp`. -/
def joinAmpL : List (List Char) → List Char
  | [] => []
  | [s] => s
  | s :: rest => s ++ '&' :: joinAmpL rest

/-- Query part of a URL: everything after the first `?` (empty when there
is none). -/
def queryOf (url : List Char) : List Char :=
  (url.dropWhile (fun c => c != '?')).drop 1

/-- Match a segment of the form `key=value` and return the value. -/
def stripKey : List Char → List Char → Option (List Char)
  | [], [] => none
  | [], c :: cs => if c = '=' then some cs else none
  | _ :: _, [] => none
  | k :: ks, c :: cs => if k = c then stripKey ks cs else none

/-- First segment of the form `key=value`, if any. -/
def findParam (key : List Char) : List (List Char) → Option (List Char)
  | [] => none
  | seg :: segs =>
    match stripKey key seg with
    | some v => some v
    | none => findParam key segs

/-- Parse a URL's query string and return the value of the first
occurrence of the given parameter. -/
def parseQueryParam (url : String) (key : String) : Option String :=
  (findParam key.toList (splitAmp (queryOf url.toList))).map String.mk

/-! ## Roles repository (src/repositories/roles.go) -/

/-- Row of the `roles` table as selected by the query (`r.id, r.name`),
i.e. `models.Role`. -/
structure RoleRow where
  id : String
  name : String
deriving DecidableEq, Repr

/-- Row of the `role_bindings` table, i.e. `models.RoleBinding`. -/
structure RoleBindingRow where
  roleID : String
  serviceAccountID : String
deriving DecidableEq, Repr

/-- State the `roles` repository queries against: the two tables, plus
the possibility that the query itself fails (`queryErr`). -/
structure RolesStorage where
  queryErr : Option String
  rolesTable : List RoleRow
  roleBindings : List RoleBindingRow

/-- Model of `roles.ForServiceAccountID`: relational semantics of
`SELECT r.id, r.name FROM roles r JOIN role_bindings rb ON
rb.role_id = r.id WHERE rb.service_account_id = ?` — one output row per
(binding, role) pair that satisfies both conditions; a query error is
returned as-is, otherwise the rows with a nil error. -/
def ForServiceAccountID (st : RolesStorage) (serviceAccountID : String) :
    Except String (List RoleRow) :=
  match st.queryErr with
  | some e => .error e
  | none =>
      .ok ((st.roleBindings.filter
        (fun rb => rb.serviceAccountID == serviceAccountID)).flatMap
        (fun rb => st.rolesTable.filter (fun r => r.id == rb.roleID)))

/-! ## Observations of the environment (what the endpoints reported) -/

/-- Predicate selecting the `Save` calls in a trace. -/
def Call.isSave : Call → Bool
  | .storeSave _ => true
  | _ => false

/-- Value of `access_token` in the token endpoint's response, when the
response decodes to an object carrying it as a JSON string. -/
def respAccessToken (env : Env) : Option String :=
  match env.tokenResp with
  | .body (.objVal fields) =>
    match lookupField fields "access_token" with
    | some (.str s) => some s
    | _ => none
  | _ => none

/-- Value of `expires_in` in the token endpoint's response, when present
as a JSON number. -/
def respExpiresIn (env : Env) : Option Int :=
  match env.tokenResp with
  | .body (.objVal fields) =>
    match lookupField fields "expires_in" with
    | some (.num n) => some n
    | _ => none
  | _ => none

/-- Email the identity endpoint reports for a bearer token (after the
struct decode, a missing field reading as `""`). -/
def respEmail (env : Env) (bearer : String) : Option String :=
  match env.userResp bearer with
  | .okBody email _ => some (email.getD "")
  | _ => none

/-! ## Inversion lemmas -/

theorem Outcome.bind_ok {α β : Type} {x : Outcome α} {f : α → Outcome β} {b : β}
    (h : x.bind f = .ok b) : ∃ a, x = .ok a ∧ f a = .ok b := by
  cases x with
  | ok a => exact ⟨a, rfl, h⟩
  | err m => simp [Outcome.bind] at h
  | panic => simp [Outcome.bind] at h

theorem asString_ok {o : Option Json} {s : String} (h : asString o = .ok s) :
    o = some (.str s) := by
  match o with
  | none => simp [asString] at h
  | some (.str s') => injection h with h; rw [h]
  | some .null | some (.bool _) | some (.num _) | some (.arr _) | some (.obj _) =>
      simp [asString] at h

theorem asFloat64_ok {o : Option Json} {n : Int} (h : asFloat64 o = .ok n) :
    o = some (.num n) := by
  match o with
  | none => simp [asFloat64] at h
  | some (.num m) => injection h with h; rw [h]
  | some .null | some (.bool _) | some (.str _) | some (.arr _) | some (.obj _) =>
      simp [asFloat64] at h

theorem decodeTokenMap_ok {fields : List (String × Json)} {now : Int} {t : Token}
    (h : decodeTokenMap fields now = .ok t) :
    lookupField fields "access_token" = some (.str t.accessToken) ∧
    lookupField fields "refresh_token" = some (.str t.refreshToken) ∧
    lookupField fields "token_type" = some (.str t.tokenType) ∧
    ∃ ei : Int, lookupField fields "expires_in" = some (.num ei) ∧
      t.expiry = now + ei ∧ t.email = "" := by
  unfold decodeTokenMap at h
  obtain ⟨atk, h1, h⟩ := Outcome.bind_ok h
  obtain ⟨rtk, h2, h⟩ := Outcome.bind_ok h
  obtain ⟨tt, h3, h⟩ := Outcome.bind_ok h
  obtain ⟨ei, h4, h⟩ := Outcome.bind_ok h
  injection h with h
  subst h
  exact ⟨asString_ok h1, asString_ok h2, asString_ok h3, ei, asFloat64_ok h4,
    rfl, rfl⟩

theorem tokenFromCode_ok {env : Env} {t : Token} {c : List Call}
    (h : tokenFromCode env = (.ok t, c)) :
    ∃ fields, env.tokenResp = .body (.objVal fields) ∧
      decodeTokenMap fields env.now = .ok t ∧ c = [.tokenPost] := by
  unfold tokenFromCode at h
  split at h
  · simp at h
  · simp at h
  · rename_i fields heq
    rw [Prod.mk.injEq] at h
    exact ⟨fields, heq, h.1, h.2.symm⟩

theorem getUserInfo_ok {env : Env} {atk : String} {ui : userInfo} {c : List Call}
    (h : getUserInfo env atk = (.ok ui, c)) :
    ∃ email hd, env.userResp atk = .okBody email hd ∧
      ui = { email := email.getD "", hostedDomain := hd.getD "" } ∧
      c = [.userGet atk] := by
  unfold getUserInfo at h
  split at h
  · simp at h
  · simp at h
  · rename_i email hd heq
    rw [Prod.mk.injEq] at h
    obtain ⟨h1, h2⟩ := h
    injection h1 with h1
    exact ⟨email, hd, heq, h1.symm, h2.symm⟩

theorem ExchangeCode_ok {env : Env} {cfg : GoogleConfig} {res : AuthResult}
    {calls : List Call} (h : ExchangeCode env cfg = (.ok res, calls)) :
    ∃ t email hd,
      tokenFromCode env = (.ok t, [.tokenPost]) ∧
      env.userResp t.accessToken = .okBody email hd ∧
      checkHostedDomain cfg (hd.getD "") = true ∧
      env.saveResult { t with email := email.getD "" } = none ∧
      res = { accessToken := t.accessToken, email := email.getD "" } ∧
      calls = [.tokenPost, .userGet t.accessToken,
               .storeSave { t with email := email.getD "" }] := by
  unfold ExchangeCode at h
  split at h
  · simp at h
  · simp at h
  rename_i t c₁ htk
  split at h
  · simp at h
  · simp at h
  rename_i ui c₂ hui
  obtain ⟨fields, -, -, hc₁⟩ := tokenFromCode_ok htk
  obtain ⟨email, hd, huresp, huival, hc₂⟩ := getUserInfo_ok hui
  subst hc₁ hc₂ huival
  split at h
  · rename_i hpol
    split at h
    · simp at h
    · rename_i hsaveok
      rw [Prod.mk.injEq] at h
      obtain ⟨hres, hcalls⟩ := h
      injection hres with hres
      exact ⟨t, email, hd, htk, huresp, hpol, hsaveok, hres.symm, by
        simpa using hcalls.symm⟩
  · simp at h

/-- Predicate selecting the outbound network calls in a trace (the token
endpoint POST and the identity endpoint GET). -/
def Call.isNetwork : Call → Bool
  | .tokenPost => true
  | .userGet _ => true
  | _ => false

/-! ## Concrete environments for witnesses and counterexamples -/

/-- A benign provider configuration. -/
def cfg₁ : GoogleConfig :=
  { clientID := "cid", clientSecret := "sec",
    redirectURL := "https://example.com/cb", hostedDomains := ["acme.com"] }

/-- A well-formed token endpoint response body. -/
def tokenFields₁ : List (String × Json) :=
  [("access_token", .str "AT1"), ("refresh_token", .str "RT1"),
   ("token_type", .str "Bearer"), ("expires_in", .num 3600)]

/-- An environment in which every step of the exchange succeeds. -/
def env₁ : Env :=
  { tokenResp := .body (.objVal tokenFields₁),
    userResp := fun _ => .okBody (some "a@acme.com") (some "acme.com"),
    saveResult := fun _ => none,
    store := fun _ => (none, none),
    now := 1000 }

/-- The token the exchange persists in `env₁`. -/
def tok₁ : Token :=
  { accessToken := "AT1", refreshToken := "RT1", tokenType := "Bearer",
    expiry := 4600, email := "a@acme.com" }

/-! ## C1 -/

/-- C1: on every successful exchange, exactly one token is saved to the
store; its `accessToken` is the `access_token` the token endpoint
returned, its `email` is the email the identity endpoint reported, and
the returned `AuthResult` is built from those same two values. -/
theorem exchangeCode_persists_single_token {env : Env} {cfg : GoogleConfig}
    {res : AuthResult} {calls : List Call}
    (h : ExchangeCode env cfg = (.ok res, calls)) :
    ∃ t : Token,
      calls.filter Call.isSave = [.storeSave t] ∧
      respAccessToken env = some t.accessToken ∧
      respEmail env t.accessToken = some t.email ∧
      res = { accessToken := t.accessToken, email := t.email } := by
  obtain ⟨t, email, hd, htk, hui, hpol, hsave, hres, hcalls⟩ := ExchangeCode_ok h
  obtain ⟨fields, henv, hdec, -⟩ := tokenFromCode_ok htk
  obtain ⟨h1, -, -, -⟩ := decodeTokenMap_ok hdec
  refine ⟨{ t with email := email.getD "" }, ?_, ?_, ?_, ?_⟩
  · subst hcalls; simp [Call.isSave, List.filter]
  · simp [respAccessToken, henv, h1]
  · simp [respEmail, hui]
  · simpa using hres

/-- Witness for C1: the concrete successful exchange in `env₁`. -/
theorem exchangeCode_persists_single_token_witness :
    ∃ t : Token,
      ([Call.tokenPost, Call.userGet "AT1",
        Call.storeSave tok₁].filter Call.isSave = [.storeSave t]) ∧
      respAccessToken env₁ = some t.accessToken ∧
      respEmail env₁ t.accessToken = some t.email ∧
      ({ accessToken := "AT1", email := "a@acme.com" } : AuthResult)
        = { accessToken := t.accessToken, email := t.email } :=
  @exchangeCode_persists_single_token env₁ cfg₁
    { accessToken := "AT1", email := "a@acme.com" }
    [Call.tokenPost, Call.userGet "AT1", Call.storeSave tok₁] rfl

/-! ## C4 -/

/-- An environment whose token endpoint returns valid JSON (`200` with an
object body) that lacks `access_token`: schema-violating but
well-formed. -/
def env₄ : Env :=
  { tokenResp := .body (.objVal [("error", .str "invalid_grant")]),
    userResp := fun _ => .okBody (some "a@acme.com") (some "acme.com"),
    saveResult := fun _ => none,
    store := fun _ => (none, none),
    now := 1000 }

/-- C4 (code bug): on the schema-violating token-endpoint body
`\x7b"error": "invalid_grant"\x7d` the exchange does NOT return an
explicit parse error — the blind type assertion
`tmap["access_token"].(string)` aborts with a runtime panic. -/
theorem exchangeCode_panics_on_schema_violation :
    ExchangeCode env₄ cfg₁ = (.panic, [.tokenPost]) := rfl

/-! ## C5 -/

/-- C5: when the token store has no token under the given access token
(`Get` returns nil token and nil error), `Authenticate` returns the
not-found error having performed only the store lookup — in particular
zero outbound network calls. -/
theorem authenticate_absent_token_no_network (env : Env) (atk : String)
    (h : env.store atk = (none, none)) :
    Authenticate env atk = (.err "access token not found", [.storeGet atk]) ∧
    (Authenticate env atk).2.filter Call.isNetwork = [] := by
  have hmain : Authenticate env atk
      = (.err "access token not found", [.storeGet atk]) := by
    unfold Authenticate
    rw [h]
  rw [hmain]
  exact ⟨rfl, rfl⟩

/-- Witness for C5: the store of `env₁` holds no token at all. -/
theorem authenticate_absent_token_no_network_witness :
    Authenticate env₁ "unknown-token"
        = (.err "access token not found", [.storeGet "unknown-token"]) ∧
    (Authenticate env₁ "unknown-token").2.filter Call.isNetwork = [] :=
  authenticate_absent_token_no_network env₁ "unknown-token" rfl

/-! ## C2 and C10: hosted-domain policy -/

theorem containsDomain_iff (l : List String) (hd : String) :
    containsDomain l hd = true ↔ hd ∈ l := by
  induction l with
  | nil => simp [containsDomain]
  | cons a rest ih =>
    by_cases hcase : hd = a
    · subst hcase; simp [containsDomain]
    · simp [containsDomain, hcase, ih]

/-- An environment whose identity endpoint reports a domain outside the
allow-list of `cfg₁`. -/
def env₂ : Env :=
  { env₁ with userResp := fun _ => .okBody (some "b@other.com") (some "other.com") }

/-- The token decoded from `tokenFields₁` before the email is copied in
(`Email` still the zero value). -/
def tokRaw₁ : Token :=
  { accessToken := "AT1", refreshToken := "RT1", tokenType := "Bearer",
    expiry := 4600, email := "" }

/-- C2: with an empty allow-list every hosted domain passes; with a
non-empty allow-list a domain passes exactly when it is literally
(case-sensitively) one of the entries; and when the policy rejects,
`ExchangeCode` fails with the policy-violation error naming the rejected
domain, performing no further dependency call. -/
theorem checkHostedDomain_policy (cfg : GoogleConfig) (hd : String) (env : Env) :
    (cfg.hostedDomains = [] → checkHostedDomain cfg hd = true) ∧
    (cfg.hostedDomains ≠ [] →
      (checkHostedDomain cfg hd = true ↔ hd ∈ cfg.hostedDomains)) ∧
    (∀ t email, tokenFromCode env = (.ok t, [.tokenPost]) →
      env.userResp t.accessToken = .okBody email (some hd) →
      checkHostedDomain cfg hd = false →
      ExchangeCode env cfg
        = (.err ("email from non-allowed hosted domain " ++ hd),
           [.tokenPost, .userGet t.accessToken])) := by
  refine ⟨?_, ?_, ?_⟩
  · intro hempty
    simp [checkHostedDomain, hempty]
  · intro hne
    unfold checkHostedDomain
    rw [if_neg (by simpa [List.isEmpty_iff] using hne)]
    exact containsDomain_iff _ _
  · intro t email htk huresp hpol
    simp [ExchangeCode, htk, getUserInfo, huresp, hpol]

/-- Witness for C2: empty allow-list accepts `any.com`; the allow-list
`["acme.com"]` accepts exactly its entry; the exchange in `env₂` is
rejected naming `other.com`. -/
theorem checkHostedDomain_policy_witness :
    checkHostedDomain { cfg₁ with hostedDomains := [] } "any.com" = true ∧
    (checkHostedDomain cfg₁ "acme.com" = true ↔ "acme.com" ∈ cfg₁.hostedDomains) ∧
    ExchangeCode env₂ cfg₁
      = (.err ("email from non-allowed hosted domain " ++ "other.com"),
         [.tokenPost, .userGet "AT1"]) :=
  ⟨(checkHostedDomain_policy { cfg₁ with hostedDomains := [] } "any.com" env₁).1 rfl,
   (checkHostedDomain_policy cfg₁ "acme.com" env₁).2.1 (by simp [cfg₁]),
   (checkHostedDomain_policy cfg₁ "other.com" env₂).2.2 tokRaw₁
     (some "b@other.com") rfl rfl rfl⟩

/-- An environment whose identity endpoint response carries no `hd`
field at all. -/
def env₁₀ : Env :=
  { env₁ with userResp := fun _ => .okBody (some "c@gmail.com") none }

/-- C10: a userinfo response without an `hd` field decodes to hosted
domain `""`; the policy accepts `""` exactly when the allow-list is
empty or contains `""`; otherwise the exchange is rejected with the
policy-violation error naming the empty domain. -/
theorem missing_hd_decodes_to_empty_domain (cfg : GoogleConfig) (env : Env) :
    (∀ atk email, env.userResp atk = .okBody email none →
      (getUserInfo env atk).1 = .ok { email := email.getD "", hostedDomain := "" }) ∧
    (checkHostedDomain cfg "" = true ↔
      (cfg.hostedDomains = [] ∨ "" ∈ cfg.hostedDomains)) ∧
    (∀ t email, tokenFromCode env = (.ok t, [.tokenPost]) →
      env.userResp t.accessToken = .okBody email none →
      checkHostedDomain cfg "" = false →
      ExchangeCode env cfg
        = (.err "email from non-allowed hosted domain ",
           [.tokenPost, .userGet t.accessToken])) := by
  refine ⟨?_, ?_, ?_⟩
  · intro atk email huresp
    simp [getUserInfo, huresp]
  · by_cases hempty : cfg.hostedDomains = []
    · simp [checkHostedDomain, hempty]
    · unfold checkHostedDomain
      rw [if_neg (by simpa [List.isEmpty_iff] using hempty)]
      simp [containsDomain_iff, hempty]
  · intro t email htk huresp hpol
    simp [ExchangeCode, htk, getUserInfo, huresp, hpol]

/-- Witness for C10: in `env₁₀` the identity endpoint omits `hd`; the
allow-list `["acme.com"]` rejects the empty domain. -/
theorem missing_hd_decodes_to_empty_domain_witness :
    (getUserInfo env₁₀ "AT1").1
        = .ok { email := "c@gmail.com", hostedDomain := "" } ∧
    (checkHostedDomain cfg₁ "" = true ↔
      (cfg₁.hostedDomains = [] ∨ "" ∈ cfg₁.hostedDomains)) ∧
    ExchangeCode env₁₀ cfg₁
      = (.err "email from non-allowed hosted domain ",
         [.tokenPost, .userGet "AT1"]) :=
  ⟨(missing_hd_decodes_to_empty_domain cfg₁ env₁₀).1 "AT1" (some "c@gmail.com") rfl,
   (missing_hd_decodes_to_empty_domain cfg₁ env₁₀).2.1,
   (missing_hd_decodes_to_empty_domain cfg₁ env₁₀).2.2 tokRaw₁
     (some "c@gmail.com") rfl rfl rfl⟩

/-! ## C3: failure propagation -/

/-- An environment whose token-store `Get` fails with an error while
also returning a nil token. -/
def env₃ : Env :=
  { env₁ with store := fun _ => (none, some "connection refused") }

/-- C3 (counterexample): a Token Store `Get` failure accompanied by a
nil token is not returned to the caller; `Authenticate` substitutes the
not-found error for it. -/
theorem authenticate_rewrites_get_error :
    env₃.store "AT1" = (none, some "connection refused") ∧
    Authenticate env₃ "AT1"
      = (.err "access token not found", [.storeGet "AT1"]) ∧
    ("access token not found" : String) ≠ "connection refused" :=
  ⟨rfl, rfl, by decide⟩

/-- C3 (amended): every dependency failure aborts the operation with no
further dependency call and is returned untouched — except that in
`Authenticate` a Token Store `Get` failure returning a nil token is
replaced by the not-found error; a `Get` failure returning a token
propagates untouched. -/
theorem failures_propagate_untouched (env : Env) (cfg : GoogleConfig)
    (atk e : String) :
    (env.tokenResp = .netErr e →
      ExchangeCode env cfg = (.err e, [.tokenPost])) ∧
    (env.tokenResp = .body (.malformed e) →
      ExchangeCode env cfg = (.err e, [.tokenPost])) ∧
    (∀ t, tokenFromCode env = (.ok t, [.tokenPost]) →
      env.userResp t.accessToken = .netErr e →
      ExchangeCode env cfg = (.err e, [.tokenPost, .userGet t.accessToken])) ∧
    (∀ t, tokenFromCode env = (.ok t, [.tokenPost]) →
      env.userResp t.accessToken = .malformed e →
      ExchangeCode env cfg = (.err e, [.tokenPost, .userGet t.accessToken])) ∧
    (∀ t ui, tokenFromCode env = (.ok t, [.tokenPost]) →
      getUserInfo env t.accessToken = (.ok ui, [.userGet t.accessToken]) →
      checkHostedDomain cfg ui.hostedDomain = true →
      env.saveResult { t with email := ui.email } = some e →
      ExchangeCode env cfg = (.err e, [.tokenPost, .userGet t.accessToken,
        .storeSave { t with email := ui.email }])) ∧
    (∀ t, env.store atk = (some t, some e) →
      Authenticate env atk = (.err e, [.storeGet atk])) ∧
    (∀ t, env.store atk = (some t, none) →
      env.userResp t.accessToken = .netErr e →
      Authenticate env atk = (.err e, [.storeGet atk, .userGet t.accessToken])) ∧
    (∀ t, env.store atk = (some t, none) →
      env.userResp t.accessToken = .malformed e →
      Authenticate env atk = (.err e, [.storeGet atk, .userGet t.accessToken])) ∧
    (env.store atk = (none, some e) →
      Authenticate env atk = (.err "access token not found", [.storeGet atk])) := by
  refine ⟨?_, ?_, ?_, ?_, ?_, ?_, ?_, ?_, ?_⟩
  · intro h; simp [ExchangeCode, tokenFromCode, h]
  · intro h; simp [ExchangeCode, tokenFromCode, h]
  · intro t htk hu; simp [ExchangeCode, htk, getUserInfo, hu]
  · intro t htk hu; simp [ExchangeCode, htk, getUserInfo, hu]
  · intro t ui htk hui hpol hsave; simp [ExchangeCode, htk, hui, hpol, hsave]
  · intro t h; simp [Authenticate, h]
  · intro t h hu; simp [Authenticate, h, getUserInfo, hu]
  · intro t h hu; simp [Authenticate, h, getUserInfo, hu]
  · intro h; simp [Authenticate, h]

/-- Environment whose token endpoint POST fails at transport level. -/
def envA : Env := { env₁ with tokenResp := .netErr "net down" }

/-- Environment whose token endpoint body fails to unmarshal. -/
def envB : Env :=
  { env₁ with tokenResp := .body (.malformed "invalid character") }

/-- Environment whose identity endpoint GET fails at transport level. -/
def envC : Env := { env₁ with userResp := fun _ => .netErr "net down" }

/-- Environment whose identity endpoint body fails to unmarshal. -/
def envD : Env := { env₁ with userResp := fun _ => .malformed "bad json" }

/-- Environment whose token store `Save` fails. -/
def envE : Env := { env₁ with saveResult := fun _ => some "db write failed" }

/-- Environment whose token store `Get` fails while returning a token. -/
def envF : Env :=
  { env₁ with store := fun _ => (some tok₁, some "db read failed") }

/-- Environment with a stored token and a transport-failing identity
endpoint. -/
def envG : Env :=
  { env₁ with store := fun _ => (some tok₁, none),
              userResp := fun _ => .netErr "net down" }

/-- Environment with a stored token and an unmarshal-failing identity
endpoint. -/
def envH : Env :=
  { env₁ with store := fun _ => (some tok₁, none),
              userResp := fun _ => .malformed "bad json" }

/-- Witness for C3: each dependency-failure case exercised at a concrete
environment. -/
theorem failures_propagate_untouched_witness :
    ExchangeCode envA cfg₁ = (.err "net down", [.tokenPost]) ∧
    ExchangeCode envB cfg₁ = (.err "invalid character", [.tokenPost]) ∧
    ExchangeCode envC cfg₁ = (.err "net down", [.tokenPost, .userGet "AT1"]) ∧
    ExchangeCode envD cfg₁ = (.err "bad json", [.tokenPost, .userGet "AT1"]) ∧
    ExchangeCode envE cfg₁
      = (.err "db write failed", [.tokenPost, .userGet "AT1", .storeSave tok₁]) ∧
    Authenticate envF "AT1" = (.err "db read failed", [.storeGet "AT1"]) ∧
    Authenticate envG "AT1" = (.err "net down", [.storeGet "AT1", .userGet "AT1"]) ∧
    Authenticate envH "AT1" = (.err "bad json", [.storeGet "AT1", .userGet "AT1"]) ∧
    Authenticate env₃ "AT1"
      = (.err "access token not found", [.storeGet "AT1"]) :=
  ⟨(failures_propagate_untouched envA cfg₁ "AT1" "net down").1 rfl,
   (failures_propagate_untouched envB cfg₁ "AT1" "invalid character").2.1 rfl,
   (failures_propagate_untouched envC cfg₁ "AT1" "net down").2.2.1 tokRaw₁ rfl rfl,
   (failures_propagate_untouched envD cfg₁ "AT1" "bad json").2.2.2.1 tokRaw₁ rfl rfl,
   (failures_propagate_untouched envE cfg₁ "AT1" "db write failed").2.2.2.2.1 tokRaw₁
     { email := "a@acme.com", hostedDomain := "acme.com" } rfl rfl rfl rfl,
   (failures_propagate_untouched envF cfg₁ "AT1" "db read failed").2.2.2.2.2.1 tok₁ rfl,
   (failures_propagate_untouched envG cfg₁ "AT1" "net down").2.2.2.2.2.2.1 tok₁ rfl rfl,
   (failures_propagate_untouched envH cfg₁ "AT1" "bad json").2.2.2.2.2.2.2.1 tok₁ rfl rfl,
   (failures_propagate_untouched env₃ cfg₁ "AT1" "connection refused").2.2.2.2.2.2.2.2 rfl⟩

/-! ## C8: token expiry -/

/-- A token endpoint body reporting `expires_in = 0`. -/
def tokenFields₀ : List (String × Json) :=
  [("access_token", .str "AT1"), ("refresh_token", .str "RT1"),
   ("token_type", .str "Bearer"), ("expires_in", .num 0)]

/-- Environment whose token endpoint reports `expires_in = 0`. -/
def env₈ : Env := { env₁ with tokenResp := .body (.objVal tokenFields₀) }

/-- The token the exchange persists in `env₈`. -/
def tok₈ : Token :=
  { accessToken := "AT1", refreshToken := "RT1", tokenType := "Bearer",
    expiry := 1000, email := "a@acme.com" }

/-- C8 (counterexample): the exchange accepts `expires_in = 0`, succeeds,
and saves a token whose expiry equals the creation time — not strictly
in the future. -/
theorem exchange_accepts_nonpositive_expires_in :
    ExchangeCode env₈ cfg₁
      = (.ok { accessToken := "AT1", email := "a@acme.com" },
         [.tokenPost, .userGet "AT1", .storeSave tok₈]) ∧
    tok₈.expiry = env₈.now ∧ ¬ env₈.now < tok₈.expiry :=
  ⟨rfl, rfl, by decide⟩

/-- C8 (amended): every token created by a successful exchange has
expiry equal to the creation time plus the reported `expires_in`
seconds, and that expiry is strictly in the future whenever the reported
`expires_in` is positive (the exchange also accepts zero and negative
values, for which it is not). -/
theorem token_expiry_now_plus_expires_in {env : Env} {cfg : GoogleConfig}
    {res : AuthResult} {calls : List Call}
    (h : ExchangeCode env cfg = (.ok res, calls)) :
    ∃ t ei, calls.filter Call.isSave = [.storeSave t] ∧
      respExpiresIn env = some ei ∧
      t.expiry = env.now + ei ∧
      (0 < ei → env.now < t.expiry) := by
  obtain ⟨t, email, hd, htk, hui, hpol, hsave, hres, hcalls⟩ := ExchangeCode_ok h
  obtain ⟨fields, henv, hdec, -⟩ := tokenFromCode_ok htk
  obtain ⟨-, -, -, ei, h4, hexp, -⟩ := decodeTokenMap_ok hdec
  refine ⟨{ t with email := email.getD "" }, ei, ?_, ?_, ?_, ?_⟩
  · subst hcalls; simp [Call.isSave, List.filter]
  · simp [respExpiresIn, henv, h4]
  · simpa using hexp
  · intro hpos
    simp only
    omega

/-- Witness for C8: the successful exchange in `env₁`
(`expires_in = 3600`). -/
theorem token_expiry_now_plus_expires_in_witness :
    ∃ t ei, ([Call.tokenPost, Call.userGet "AT1",
        Call.storeSave tok₁].filter Call.isSave = [.storeSave t]) ∧
      respExpiresIn env₁ = some ei ∧
      t.expiry = env₁.now + ei ∧
      (0 < ei → env₁.now < t.expiry) :=
  @token_expiry_now_plus_expires_in env₁ cfg₁
    { accessToken := "AT1", email := "a@acme.com" }
    [Call.tokenPost, Call.userGet "AT1", Call.storeSave tok₁] rfl

/-! ## C9: ForServiceAccountID -/

theorem mem_forServiceAccountID {st : RolesStorage} {said : String}
    {res : List RoleRow} (h : ForServiceAccountID st said = .ok res)
    (r : RoleRow) :
    r ∈ res ↔ (r ∈ st.rolesTable ∧
      ∃ rb ∈ st.roleBindings, rb.serviceAccountID = said ∧ rb.roleID = r.id) := by
  unfold ForServiceAccountID at h
  rcases hq : st.queryErr with _ | e
  · rw [hq] at h
    injection h with h
    subst h
    simp only [List.mem_flatMap, List.mem_filter, beq_iff_eq]
    constructor
    · rintro ⟨rb, ⟨hrb, hsaid⟩, hr, hid⟩
      exact ⟨hr, rb, hrb, hsaid, hid.symm⟩
    · rintro ⟨hr, rb, hrb, hsaid, hid⟩
      exact ⟨rb, ⟨hrb, hsaid⟩, hr, hid.symm⟩
  · rw [hq] at h
    simp at h

/-- C9: for an account with zero bindings the query returns the empty
collection with no error; in general a role is in the result exactly
when it is bound to the account, so the result viewed as a set is
exactly the account's bound roles, independent of the order of the
binding rows. -/
theorem forServiceAccountID_set_semantics (st : RolesStorage) (said : String)
    (hok : st.queryErr = none) :
    ((∀ rb ∈ st.roleBindings, rb.serviceAccountID ≠ said) →
      ForServiceAccountID st said = .ok []) ∧
    (∀ res, ForServiceAccountID st said = .ok res →
      ∀ r, r ∈ res ↔ (r ∈ st.rolesTable ∧
        ∃ rb ∈ st.roleBindings, rb.serviceAccountID = said ∧ rb.roleID = r.id)) ∧
    (∀ st' res res', st'.queryErr = none →
      st'.rolesTable = st.rolesTable →
      st'.roleBindings.Perm st.roleBindings →
      ForServiceAccountID st said = .ok res →
      ForServiceAccountID st' said = .ok res' →
      ∀ r, r ∈ res' ↔ r ∈ res) := by
  refine ⟨?_, ?_, ?_⟩
  · intro hnone
    unfold ForServiceAccountID
    rw [hok]
    have hfil : st.roleBindings.filter
        (fun rb => rb.serviceAccountID == said) = [] := by
      rw [List.filter_eq_nil_iff]
      intro rb hrb
      simpa using hnone rb hrb
    rw [hfil]
    rfl
  · intro res hres r
    exact mem_forServiceAccountID hres r
  · intro st' res res' hok' htab hperm hres hres' r
    rw [mem_forServiceAccountID hres' r, mem_forServiceAccountID hres r]
    simp only [htab, hperm.mem_iff]

/-- Concrete storage: role `admin` (id `1`) bound to `sa1`; nothing
bound to `sa2`. -/
def st₉ : RolesStorage :=
  { queryErr := none,
    rolesTable := [{ id := "1", name := "admin" }],
    roleBindings := [{ roleID := "1", serviceAccountID := "sa1" }] }

/-- Witness for C9: `sa2` has zero bindings in `st₉` and gets the empty
result with no error. -/
theorem forServiceAccountID_set_semantics_witness :
    ForServiceAccountID st₉ "sa2" = .ok [] :=
  (forServiceAccountID_set_semantics st₉ "sa2" rfl).1 (by decide)

/-! ## C6 and C7: string plumbing -/

theorem toList_append (a b : String) : (a ++ b).toList = a.toList ++ b.toList := by
  cases a; cases b; rfl

theorem joinAmp_toList (l : List String) :
    (joinAmp l).toList = joinAmpL (l.map String.toList) := by
  induction l with
  | nil => rfl
  | cons s rest ih =>
    cases rest with
    | nil => rfl
    | cons t ts =>
      show ((s ++ "&") ++ joinAmp (t :: ts)).toList
          = s.toList ++ '&' :: joinAmpL ((t :: ts).map String.toList)
      rw [toList_append, toList_append, ih]
      simp

theorem splitAmp_no_amp (s : List Char) (h : '&' ∉ s) : splitAmp s = [s] := by
  induction s with
  | nil => rfl
  | cons c cs ih =>
    have hc : c ≠ '&' := fun hh => h (hh ▸ List.mem_cons_self c cs)
    have hcs : '&' ∉ cs := fun hm => h (List.mem_cons_of_mem _ hm)
    simp [splitAmp, hc, ih hcs]

theorem splitAmp_append_amp (s rest : List Char) (h : '&' ∉ s) :
    splitAmp (s ++ '&' :: rest) = s :: splitAmp rest := by
  induction s with
  | nil => simp [splitAmp]
  | cons c cs ih =>
    have hc : c ≠ '&' := fun hh => h (hh ▸ List.mem_cons_self c cs)
    have hcs : '&' ∉ cs := fun hm => h (List.mem_cons_of_mem _ hm)
    simp [splitAmp, hc, ih hcs]

theorem splitAmp_joinAmpL (segs : List (List Char)) (hne : segs ≠ [])
    (h : ∀ s ∈ segs, '&' ∉ s) : splitAmp (joinAmpL segs) = segs := by
  induction segs with
  | nil => exact absurd rfl hne
  | cons s rest ih =>
    cases rest with
    | nil => exact splitAmp_no_amp s (h s (by simp))
    | cons t ts =>
      show splitAmp (s ++ '&' :: joinAmpL (t :: ts)) = s :: t :: ts
      rw [splitAmp_append_amp _ _ (h s (by simp))]
      rw [ih (by simp) (fun x hx => h x (by simp [hx]))]

theorem stripKey_key_eq (key v : List Char) :
    stripKey key (key ++ '=' :: v) = some v := by
  induction key with
  | nil => simp [stripKey]
  | cons k ks ih => simp [stripKey, ih]

/-- Computes, walking the candidate prefix against the key, whether
`stripKey` is already known to fail within the prefix, whatever follows. -/
def stripKeyStops : List Char → List Char → Bool
  | _, [] => false
  | [], c :: _ => c != '='
  | k :: ks, c :: cs => if k = c then stripKeyStops ks cs else true

theorem stripKey_none_of_stops (key : List Char) (pre : List Char)
    (h : stripKeyStops key pre = true) (v : List Char) :
    stripKey key (pre ++ v) = none := by
  induction key generalizing pre with
  | nil =>
    cases pre with
    | nil => simp [stripKeyStops] at h
    | cons c cs =>
      have hc : c ≠ '=' := by simpa [stripKeyStops] using h
      simp [stripKey, hc]
  | cons k ks ih =>
    cases pre with
    | nil => simp [stripKeyStops] at h
    | cons c cs =>
      by_cases hkc : k = c
      · subst hkc
        simp only [stripKeyStops, if_pos rfl] at h
        simp [stripKey, ih cs h]
      · simp [stripKey, hkc]

theorem findParam_eq_some {key v : List Char} {segs : List (List Char)}
    (hall : ∀ s ∈ segs, stripKey key s = none ∨ stripKey key s = some v)
    (hex : ∃ s ∈ segs, stripKey key s = some v) :
    findParam key segs = some v := by
  induction segs with
  | nil => obtain ⟨s, hs, -⟩ := hex; exact absurd hs (by simp)
  | cons s rest ih =>
    rcases hall s (by simp) with hnone | hsome
    · have hstep : findParam key (s :: rest) = findParam key rest := by
        simp [findParam, hnone]
      rw [hstep]
      refine ih (fun x hx => hall x (by simp [hx])) ?_
      obtain ⟨x, hx, hxv⟩ := hex
      rcases List.mem_cons.mp hx with rfl | hx'
      · rw [hnone] at hxv; cases hxv
      · exact ⟨x, hx', hxv⟩
    · simp [findParam, hsome]

theorem dropWhile_append_cons (p : Char → Bool) (a : List Char) (x : Char)
    (b : List Char) (ha : ∀ c ∈ a, p c = true) (hx : p x = false) :
    List.dropWhile p (a ++ x :: b) = x :: b := by
  induction a with
  | nil => simp [List.dropWhile, hx]
  | cons c cs ih =>
    have hc : p c = true := ha c (by simp)
    simp only [List.cons_append, List.dropWhile_cons, hc, if_true]
    exact ih (fun d hd => ha d (by simp [hd]))

theorem fmtPair_toList (k v : String) :
    (fmtPair (k, v)).toList = k.toList ++ '=' :: v.toList := by
  show ((k ++ "=") ++ v).toList = _
  rw [toList_append, toList_append]
  simp

theorem queryOf_buildAuthURL (iter : List (String × String)) :
    queryOf (BuildAuthURL iter).toList
      = joinAmpL ((iter.map fmtPair).map String.toList) := by
  show queryOf ((googleAuthEndpoint ++ "?") ++ mapToQueryStrings iter).toList = _
  rw [toList_append, toList_append]
  unfold queryOf
  rw [List.append_assoc]
  have hq : ("?".toList : List Char) ++ (mapToQueryStrings iter).toList
      = '?' :: (mapToQueryStrings iter).toList := rfl
  rw [hq]
  rw [dropWhile_append_cons _ _ _ _ (by decide) (by decide)]
  show (joinAmp (iter.map fmtPair)).toList = _
  rw [joinAmp_toList]

theorem splitAmp_buildAuthURL (cfg : GoogleConfig) (state : String)
    (iter : List (String × String)) (hperm : iter.Perm (authParams cfg state))
    (hstate : '&' ∉ state.toList) (hred : '&' ∉ cfg.redirectURL.toList)
    (hcid : '&' ∉ cfg.clientID.toList) :
    splitAmp (queryOf (BuildAuthURL iter).toList)
      = (iter.map fmtPair).map String.toList := by
  rw [queryOf_buildAuthURL]
  apply splitAmp_joinAmpL
  · intro hnil
    rw [List.map_eq_nil_iff, List.map_eq_nil_iff] at hnil
    subst hnil
    simpa [authParams] using hperm.length_eq
  · intro s hs
    rw [List.mem_map] at hs
    obtain ⟨seg, hseg, rfl⟩ := hs
    rw [List.mem_map] at hseg
    obtain ⟨p, hp, rfl⟩ := hseg
    have hpmem : p ∈ authParams cfg state := hperm.subset hp
    simp only [authParams, List.mem_cons, List.not_mem_nil, or_false] at hpmem
    rcases hpmem with h | h | h | h | h | h | h | h <;> subst h <;>
      rw [fmtPair_toList] <;> rw [List.mem_append] <;> push_neg <;>
      refine ⟨by decide, ?_⟩
    · simpa using hstate
    · simpa using hred
    · simpa using hcid
    · decide
    · decide
    · decide
    · decide
    · decide

theorem findParam_state (cfg : GoogleConfig) (state : String)
    (iter : List (String × String)) (hperm : iter.Perm (authParams cfg state)) :
    findParam "state".toList ((iter.map fmtPair).map String.toList)
      = some state.toList := by
  apply findParam_eq_some
  · intro s hs
    rw [List.mem_map] at hs
    obtain ⟨seg, hseg, rfl⟩ := hs
    rw [List.mem_map] at hseg
    obtain ⟨p, hp, rfl⟩ := hseg
    have hpmem : p ∈ authParams cfg state := hperm.subset hp
    simp only [authParams, List.mem_cons, List.not_mem_nil, or_false] at hpmem
    rcases hpmem with h | h | h | h | h | h | h | h <;> subst h <;>
      rw [fmtPair_toList]
    · right
      exact stripKey_key_eq _ _
    · left
      rw [show ("redirect_uri".toList ++ '=' :: cfg.redirectURL.toList)
          = ("redirect_uri".toList ++ ['=']) ++ cfg.redirectURL.toList by simp]
      exact stripKey_none_of_stops _ _ (by decide) _
    · left
      rw [show ("client_id".toList ++ '=' :: cfg.clientID.toList)
          = ("client_id".toList ++ ['=']) ++ cfg.clientID.toList by simp]
      exact stripKey_none_of_stops _ _ (by decide) _
    · left
      rw [show ("scope".toList ++ '=' :: googleScope.toList)
          = ("scope".toList ++ ['=']) ++ googleScope.toList by simp]
      exact stripKey_none_of_stops _ _ (by decide) _
    · left; decide
    · left; decide
    · left; decide
    · left; decide
  · refine ⟨(fmtPair ("state", state)).toList, ?_, ?_⟩
    · exact List.mem_map_of_mem _ (List.mem_map_of_mem _
        (hperm.mem_iff.mpr (by simp [authParams])))
    · rw [fmtPair_toList]
      exact stripKey_key_eq _ _

/-! ## C6 -/

/-- An iteration order with the first two map entries swapped. -/
def iterSwapped : List (String × String) :=
  ("redirect_uri", cfg₁.redirectURL) :: ("state", "xyz") ::
    (authParams cfg₁ "xyz").drop 2

/-- C6 (counterexample): two invocations of `BuildAuthURL` with the
identical configuration and state but different (both legitimate) map
iteration orders return different URL strings — the output is not a
function of `(config, state)` alone. -/
theorem buildAuthURL_not_string_deterministic :
    iterSwapped.Perm (authParams cfg₁ "xyz") ∧
    BuildAuthURL (authParams cfg₁ "xyz") ≠ BuildAuthURL iterSwapped := by
  constructor
  · exact List.Perm.swap _ _ _
  · decide

/-- C6 (amended): `BuildAuthURL` performs no dependency call, and the
URL is determined by `(config, state)` up to the order of the query
parameters: any two iteration orders give URLs whose query strings parse
to the same multiset of `key=value` segments (the string itself varies
with Go's randomized map iteration order). -/
theorem buildAuthURL_query_multiset_deterministic (cfg : GoogleConfig)
    (state : String) (iter₁ iter₂ : List (String × String))
    (h₁ : iter₁.Perm (authParams cfg state))
    (h₂ : iter₂.Perm (authParams cfg state))
    (hstate : '&' ∉ state.toList) (hred : '&' ∉ cfg.redirectURL.toList)
    (hcid : '&' ∉ cfg.clientID.toList) :
    (splitAmp (queryOf (BuildAuthURL iter₁).toList)).Perm
      (splitAmp (queryOf (BuildAuthURL iter₂).toList)) := by
  rw [splitAmp_buildAuthURL cfg state iter₁ h₁ hstate hred hcid,
      splitAmp_buildAuthURL cfg state iter₂ h₂ hstate hred hcid]
  exact ((h₁.trans h₂.symm).map fmtPair).map String.toList

/-- Witness for C6 (amended): the canonical and the swapped iteration
orders on `cfg₁` and state `xyz` give query strings with the same
segment multiset. -/
theorem buildAuthURL_query_multiset_deterministic_witness :
    (splitAmp (queryOf (BuildAuthURL (authParams cfg₁ "xyz")).toList)).Perm
      (splitAmp (queryOf (BuildAuthURL iterSwapped).toList)) :=
  buildAuthURL_query_multiset_deterministic cfg₁ "xyz"
    (authParams cfg₁ "xyz") iterSwapped (List.Perm.refl _)
    (List.Perm.swap _ _ _) (by decide) (by decide) (by decide)

/-! ## C7 -/

/-- C7 (counterexample): `BuildAuthURL` does not URL-escape the state.
For the state `a&b` the URL's query string parses back with
`state = "a"`, not the input. -/
theorem buildAuthURL_state_not_escaped :
    (authParams cfg₁ "a&b").Perm (authParams cfg₁ "a&b") ∧
    parseQueryParam (BuildAuthURL (authParams cfg₁ "a&b")) "state"
      = some "a" ∧
    (some "a" : Option String) ≠ some "a&b" :=
  ⟨List.Perm.refl _, by decide, by decide⟩

/-- C7 (amended): for every state string not containing `&` (and a
configuration whose redirect URL and client id contain no `&`), the URL
returned by `BuildAuthURL` — under any map iteration order — carries a
`state` query parameter that parses back to exactly the input state. -/
theorem buildAuthURL_state_roundtrip (cfg : GoogleConfig) (state : String)
    (iter : List (String × String)) (hperm : iter.Perm (authParams cfg state))
    (hstate : '&' ∉ state.toList) (hred : '&' ∉ cfg.redirectURL.toList)
    (hcid : '&' ∉ cfg.clientID.toList) :
    parseQueryParam (BuildAuthURL iter) "state" = some state := by
  unfold parseQueryParam
  rw [splitAmp_buildAuthURL cfg state iter hperm hstate hred hcid]
  rw [findParam_state cfg state iter hperm]
  rfl

/-- Witness for C7 (amended): state `xyz` under the swapped iteration
order parses back exactly. -/
theorem buildAuthURL_state_roundtrip_witness :
    parseQueryParam (BuildAuthURL iterSwapped) "state" = some "xyz" :=
  buildAuthURL_state_roundtrip cfg₁ "xyz" iterSwapped
    (List.Perm.swap _ _ _) (by decide) (by decide) (by decide)
